import Mathlib

/-!
Verification of the gosu command-execution engine (cmd.go).

The Go source is shallowly embedded: `splitCommand` operates on the token
list produced by the external tokenizer `str.ToArgv`; process execution is
modelled as explicit state passing over an `EngineState` together with an
event trace recording the observable OS interactions (kill signals, process
starts, log messages); fallible OS calls are parameterized by oracles giving
their outcome.  A Go runtime panic is modelled as `Option.none`.
-/

namespace Gosu

/-- Result of `splitCommand`: the named returns `(executable, argv, env)`. -/
structure SplitResult where
  executable : String
  argv : List String
  env : List String
deriving Repr, DecidableEq

/-- Go `strings.Contains(item, "=")`: whether the token holds an `=`
character (stated over the character list so the kernel can evaluate it). -/
def containsEq (s : String) : Bool := s.data.contains '='

/-- Go `strings.HasSuffix(s, suffix)` (stated over character lists so the
kernel can evaluate it). -/
def hasSuffix (s suffix : String) : Bool := suffix.data.isSuffixOf s.data

/-- The `for i, item := range argv` loop of `splitCommand`: leading tokens
containing `=` are accumulated into `env`; at the first token without `=`
the loop returns that token together with the remaining tokens
(`argv = argv[i+1:]`).  Returns `(none, env)` when the loop runs off the
end, i.e. every token contains `=`. -/
def scanTokens (env : List String) : List String → Option (String × List String) × List String
  | [] => (none, env)
  | item :: rest =>
    if containsEq item then scanTokens (env ++ [item]) rest
    else (some (item, rest), env)

/-- The function `splitCommand`, embedded over the token list `str.ToArgv` produces.
After the loop falls through, Go evaluates `argv[0]` and `argv[1:]` on the
original token list; on an empty list `argv[0]` is an out-of-range index,
a runtime panic, modelled as `none`. -/
def splitCommand (tokens : List String) : Option SplitResult :=
  match scanTokens [] tokens with
  | (some (ex, argv), env) => some ⟨ex, argv, env⟩
  | (none, env) =>
    match tokens with
    | [] => none
    | t :: ts => some ⟨t, ts, env⟩

/-- The command descriptor (`type command struct`); the output recorder is
part of the run semantics, not of the descriptor. -/
structure Command where
  executable : String
  argv : List String
  env : List String
  wd : String
  captureOutput : Bool
deriving Repr, DecidableEq

/-- Go `command.hash`: executable concatenated with the comma-joined argv when
argv is non-empty, else the executable alone. -/
def Command.hash (c : Command) : String :=
  if c.argv.length > 0 then c.executable ++ String.intercalate "," c.argv
  else c.executable

/-- Which stream a child write goes to. -/
inductive Stream'
  | stdout
  | stderr
deriving Repr, DecidableEq

/-- Behaviour of the child process during one blocking run: the sequence of
writes it performs and the error `cmd.Run()` returns (`none` = exit 0). -/
structure ChildBehavior where
  writes : List (Stream' × String)
  exitError : Option String
deriving Repr

/-- Modelled from the spec: the Output Tee (`newFileWrapper`, defined
outside cmd.go) copies every byte written by the child verbatim into the
recording buffer; with `captureOutput = false` the recorder is never wired
up, so it stays empty. -/
def recorderContents (c : Command) (child : ChildBehavior) : String :=
  if c.captureOutput then String.join (child.writes.map (fun w => w.2)) else ""

/-- Go `command.run`: runs the built command and returns
`(recorder.String(), err)` when capturing, `("", err)` otherwise. -/
def Command.run (c : Command) (child : ChildBehavior) : String × Option String :=
  if c.captureOutput then (recorderContents c child, child.exitError) else ("", child.exitError)

/-- Go `getWd`: the explicit working directory if one was passed, otherwise
the result of `os.Getwd()` (given by the oracle `osGetwd`). -/
def getWd (wd : Option String) (osGetwd : Except String String) : Except String String :=
  match wd with
  | some d => .ok d
  | none => osGetwd

/-- The package-level `run`: resolve the working directory, split the
command string, build the descriptor, run it.  Go returns `("", err)` when
`getWd` fails; a `splitCommand` panic (empty token list) propagates,
modelled as `none`. -/
def run (captureOutput : Bool) (tokens : List String) (wd : Option String)
    (osGetwd : Except String String) (child : ChildBehavior) :
    Option (String × Option String) :=
  match getWd wd osGetwd with
  | .error e => some ("", some e)
  | .ok dir =>
    match splitCommand tokens with
    | none => none
    | some r =>
      let c : Command := ⟨r.executable, r.argv, r.env, dir, captureOutput⟩
      some (c.run child)

/-- Observable OS interactions of the async engine. -/
inductive Event
  | killSignal (pid : Nat)
  | logError (source msg : String)
  | osStart (pid : Nat) (c : Command)
  | blockingRun (c : Command)
deriving Repr, DecidableEq

/-- The process-wide mutable state of the engine: the registry
`spawnedProcesses` (association list, most recent binding first), the
shutdown barrier (`waitExit` flag plus the waitgroup counter, the waitgroup
itself lives outside cmd.go and is modelled from the spec's Shutdown
Barrier), and a model of the OS: the set of live process ids and a fresh
pid supply. -/
structure EngineState where
  spawnedProcesses : List (String × Nat)
  waitExit : Bool
  waitCount : Nat
  live : List Nat
  nextPid : Nat
deriving Repr, DecidableEq

/-- Map lookup in `spawnedProcesses` (`spawnedProcesses[command]`). -/
def lookupId : List (String × Nat) → String → Option Nat
  | [], _ => none
  | (k, v) :: rest, id => if k = id then some v else lookupId rest id

/-- Map update `spawnedProcesses[id] = pid` (newest binding shadows). -/
def insertId (m : List (String × Nat)) (id : String) (pid : Nat) : List (String × Nat) :=
  (id, pid) :: m

/-- Go `killSpawned`: looks up the tracked handle for `command`; a missing
handle is a no-op.  Otherwise `process.Kill()` is issued (oracle `killErr`
says whether it fails); on failure the error is logged via `util.Error`
and the function returns; on success the process dies.  The registry entry
is never removed and no error is ever returned to the caller. -/
def killSpawned (killErr : Nat → Option String) (st : EngineState) (command : String) :
    EngineState × List Event :=
  match lookupId st.spawnedProcesses command with
  | none => (st, [])
  | some pid =>
    match killErr pid with
    | some _ =>
      (st, [.killSignal pid, .logError "Start" "Could not kill existing process"])
    | none => ({ st with live := st.live.erase pid }, [.killSignal pid])

/-- Go `command.runAsync`, with the spawned goroutine sequentialized: the body
runs up to the point where the process has started and its handle is
registered (the `cmd.Wait()` / `waitgroup.Done()` tail runs only when the
process later exits, see `processExit`).  `toCmd` always returns a nil
error.  The caller-visible return value is the final `return nil`; the
goroutine's assignment to `err` happens after `runAsync` has returned, so a
failed `cmd.Start()` (oracle `startErr`) makes the goroutine return early:
no registration, no `waitgroup.Done()`, error discarded. -/
def runAsync (killErr : Nat → Option String) (startErr : Option String)
    (st : EngineState) (c : Command) : EngineState × List Event × Option String :=
  let id := c.hash
  let (st1, evs) := killSpawned killErr st id
  let st2 := { st1 with waitExit := true, waitCount := st1.waitCount + 1 }
  match startErr with
  | some _ => (st2, evs, none)
  | none =>
    let pid := st2.nextPid
    let st3 := { st2 with
      live := pid :: st2.live
      spawnedProcesses := insertId st2.spawnedProcesses id pid
      nextPid := st2.nextPid + 1 }
    (st3, evs ++ [.osStart pid c], none)

/-- The deferred tail of the `runAsync` goroutine: when a live process
exits, `cmd.Wait()` returns and `waitgroup.Done()` decrements the barrier.
No other transition ever decrements the counter. -/
def processExit (st : EngineState) (pid : Nat) : Option EngineState :=
  if pid ∈ st.live then
    some { st with live := st.live.erase pid, waitCount := st.waitCount - 1 }
  else none

/-- Modelled from the spec: the Shutdown Barrier's `Await` (defined outside
cmd.go) blocks until the outstanding count reaches zero, and only when the
"should wait" flag was ever set. -/
def awaitBlocked (st : EngineState) : Bool :=
  st.waitExit && st.waitCount != 0

/-- Go `path.Base`: empty path gives ".", trailing slashes are stripped,
the component after the last "/" is returned, an all-slash path gives "/". -/
def pathBase (p : String) : String :=
  if p = "" then "."
  else
    let stripped := (p.toList.reverse.dropWhile (fun ch => ch = '/')).reverse
    if stripped = [] then "/"
    else String.mk ((stripped.reverse.takeWhile (fun ch => ch ≠ '/')).reverse)

/-- Go `Start`: resolve the working directory; split the command string (a
panic there propagates as `none`); when the executable ends in ".go",
first run the blocking build `Run("go install", wd...)` (outcome given by
oracle `buildErr`) — a build failure is returned without touching the
engine state — and on success replace the executable by
`path.Base(dir)`; finally hand the descriptor to `runAsync`. -/
def Start (tokens : List String) (wd : Option String) (osGetwd : Except String String)
    (buildErr : Option String) (killErr : Nat → Option String) (startErr : Option String)
    (st : EngineState) : Option (EngineState × List Event × Option String) :=
  match getWd wd osGetwd with
  | .error e => some (st, [], some e)
  | .ok dir =>
    match splitCommand tokens with
    | none => none
    | some r =>
      let isGoFile := hasSuffix r.executable ".go"
      if isGoFile then
        let buildCmd : Command := ⟨"go", ["install"], [], dir, false⟩
        match buildErr with
        | some e => some (st, [.blockingRun buildCmd], some e)
        | none =>
          let c : Command := ⟨pathBase dir, r.argv, r.env, dir, false⟩
          let (st', evs, ret) := runAsync killErr startErr st c
          some (st', .blockingRun buildCmd :: evs, ret)
      else
        let c : Command := ⟨r.executable, r.argv, r.env, dir, false⟩
        let (st', evs, ret) := runAsync killErr startErr st c
        some (st', evs, ret)

/-- The file-system state `Inside` acts on: the process-wide current
working directory and the set of directories that exist (`os.Chdir`
succeeds exactly when the target exists). -/
structure World where
  cwd : String
  dirs : List String
deriving Repr, DecidableEq

/-- Go `os.Chdir`: switches the working directory when the target exists. -/
def chdir (w : World) (dir : String) : Option World :=
  if dir ∈ w.dirs then some { w with cwd := dir } else none

/-- Whether the callback returns normally or panics. -/
inductive LambdaOutcome
  | ok
  | panicked
deriving Repr, DecidableEq

/-- Result `Inside` produces for its caller. -/
inductive InsideResult
  | ok
  | chdirError (dir : String)
  | panicked
deriving Repr, DecidableEq

/-- Go `Inside`: record `olddir := os.Getwd()`, switch to `dir` (a failure is
returned without invoking the callback), invoke the callback, and restore
`olddir` through the deferred `os.Chdir(olddir)` whose error is ignored —
the defer also runs while a callback panic unwinds, and the panic then
propagates.  The third component records the worlds at which the callback
was invoked. -/
def Inside (dir : String) (lambda : World → World × LambdaOutcome) (w : World) :
    World × InsideResult × List World :=
  let olddir := w.cwd
  match chdir w dir with
  | none => (w, .chdirError dir, [])
  | some w1 =>
    let (w2, outcome) := lambda w1
    let w3 := match chdir w2 olddir with
              | some w' => w'
              | none => w2
    match outcome with
    | .ok => (w3, .ok, [w1])
    | .panicked => (w3, .panicked, [w1])

/-! ## Lemmas about the splitter scan -/

theorem scanTokens_assignments (as : List String) (b : String) (bs : List String)
    (env : List String) (has : ∀ a ∈ as, containsEq a = true)
    (hb : containsEq b = false) :
    scanTokens env (as ++ b :: bs) = (some (b, bs), env ++ as) := by
  induction as generalizing env with
  | nil => simp [scanTokens, hb]
  | cons a as ih =>
    have ha : containsEq a = true := has a (List.mem_cons_self a as)
    have htail : ∀ x ∈ as, containsEq x = true := fun x hx => has x (List.mem_cons_of_mem a hx)
    simp only [List.cons_append, scanTokens, ha, if_pos, List.append_eq]
    rw [ih (env ++ [a]) htail]
    simp

theorem scanTokens_all_assignments (ts : List String) (env : List String)
    (h : ∀ t ∈ ts, containsEq t = true) :
    scanTokens env ts = (none, env ++ ts) := by
  induction ts generalizing env with
  | nil => simp [scanTokens]
  | cons t ts ih =>
    have ht : containsEq t = true := h t (List.mem_cons_self t ts)
    have htail : ∀ x ∈ ts, containsEq x = true := fun x hx => h x (List.mem_cons_of_mem t hx)
    simp only [scanTokens, ht, if_pos]
    rw [ih _ htail]
    simp

/-! ## C1 -/

/-- C1: a token list of N leading assignment tokens (containing `=`)
followed by M ≥ 1 non-assignment tokens is split into the first
non-assignment token as executable, exactly the N assignment tokens (in
order) as env, and the remaining M−1 tokens (in order) as argv. -/
theorem splitCommand_leading_assignments (as : List String) (b : String) (bs : List String)
    (has : ∀ a ∈ as, containsEq a = true)
    (hb : containsEq b = false)
    (_hbs : ∀ x ∈ bs, containsEq x = false) :
    splitCommand (as ++ b :: bs) = some ⟨b, bs, as⟩ := by
  unfold splitCommand
  rw [scanTokens_assignments as b bs [] has hb]
  simp

theorem splitCommand_leading_assignments_witness :
    splitCommand (["A=1", "B=2"] ++ "echo" :: ["hi"]) =
      some ⟨"echo", ["hi"], ["A=1", "B=2"]⟩ :=
  splitCommand_leading_assignments ["A=1", "B=2"] "echo" ["hi"]
    (by decide) (by decide) (by decide)

/-! ## C6 -/

/-- C6: on a non-empty token list in which every token contains `=`, the
splitter does not crash: it falls back to the first token as executable
and the remaining tokens as argv (the env accumulator then holds every
token). -/
theorem splitCommand_all_assignments_fallback (t : String) (ts : List String)
    (h : ∀ x ∈ t :: ts, containsEq x = true) :
    splitCommand (t :: ts) = some ⟨t, ts, t :: ts⟩ := by
  unfold splitCommand
  rw [scanTokens_all_assignments (t :: ts) [] h]
  simp

theorem splitCommand_all_assignments_fallback_witness :
    splitCommand ["A=1"] = some ⟨"A=1", [], ["A=1"]⟩ :=
  splitCommand_all_assignments_fallback "A=1" [] (by decide)

/-! ## C9 -/

/-- C9: the function `splitCommand` is not total: on zero tokens it indexes `argv[0]`
on an empty slice and panics (modelled as `none`), and `run` (hence `Run`
and `RunOutput`) and `Start` inherit the panic on empty input; with at
least one token the split always succeeds, so the non-empty-executable
guarantee only holds under that precondition. -/
theorem splitCommand_empty_panics :
    splitCommand [] = none ∧
    (∀ ts : List String, ts ≠ [] → (splitCommand ts).isSome = true) ∧
    (∀ (captureOutput : Bool) (d : String) (osGetwd : Except String String)
      (child : ChildBehavior), run captureOutput [] (some d) osGetwd child = none) ∧
    (∀ (d : String) (osGetwd : Except String String) (buildErr : Option String)
      (killErr : Nat → Option String) (startErr : Option String) (st : EngineState),
      Start [] (some d) osGetwd buildErr killErr startErr st = none) := by
  refine ⟨rfl, ?_, ?_, ?_⟩
  · intro ts hne
    match ts with
    | t :: ts' =>
      unfold splitCommand
      rcases h : scanTokens [] (t :: ts') with ⟨o, env⟩
      cases o <;> simp
  · intro captureOutput d osGetwd child
    simp [run, getWd, splitCommand, scanTokens]
  · intro d osGetwd buildErr killErr startErr st
    simp [Start, getWd, splitCommand, scanTokens]

theorem splitCommand_empty_panics_witness :
    splitCommand [] = none ∧ (splitCommand ["ls"]).isSome = true ∧
    Start [] (some "/tmp") (.ok "/tmp") none (fun _ => none) none
      ⟨[], false, 0, [], 0⟩ = none :=
  ⟨splitCommand_empty_panics.1,
   splitCommand_empty_panics.2.1 ["ls"] (by decide),
   splitCommand_empty_panics.2.2.2 "/tmp" (.ok "/tmp") none (fun _ => none) none
     ⟨[], false, 0, [], 0⟩⟩

/-! ## C8 -/

/-- C8: running `command.run` with `captureOutput = false` returns the empty
string as captured output, whatever the child writes. -/
theorem run_no_capture_empty_output (c : Command) (child : ChildBehavior)
    (h : c.captureOutput = false) : (c.run child).1 = "" := by
  simp [Command.run, h]

theorem run_no_capture_empty_output_witness :
    ((Command.mk "echo" ["hi"] [] "/tmp" false).run
      ⟨[(.stdout, "hi"), (.stderr, "oops")], some "exit status 1"⟩).1 = "" :=
  run_no_capture_empty_output _ _ rfl

/-! ## C10 -/

/-- C10: the identity `command.hash` is not injective: the distinct
descriptors (executable "ab", argv []) and (executable "a", argv ["b"])
collide, and a `runAsync` of the second kills the tracked process of the
first: starting the first from a fresh state tracks pid 0 under "ab", and
the second's event trace then issues the kill signal for pid 0 before
starting its own process. -/
theorem hash_not_injective :
    (Command.mk "ab" [] [] "" false) ≠ (Command.mk "a" ["b"] [] "" false) ∧
    (Command.mk "ab" [] [] "" false).hash = (Command.mk "a" ["b"] [] "" false).hash ∧
    lookupId (runAsync (fun _ => none) none ⟨[], false, 0, [], 0⟩
        (Command.mk "ab" [] [] "" false)).1.spawnedProcesses
        (Command.mk "ab" [] [] "" false).hash = some 0 ∧
    (runAsync (fun _ => none) none
        (runAsync (fun _ => none) none ⟨[], false, 0, [], 0⟩
          (Command.mk "ab" [] [] "" false)).1
        (Command.mk "a" ["b"] [] "" false)).2.1 =
      [Event.killSignal 0, Event.osStart 1 (Command.mk "a" ["b"] [] "" false)] := by
  refine ⟨by decide, by decide, by decide, by decide⟩

/-! ## C3 -/

/-- C3: when the goroutine's `cmd.Start()` fails, `runAsync` has already
incremented the barrier and returned nil: the counter stays incremented
(no `Done`), no handle is registered, the error is discarded, the barrier
blocks — and when no other process was live, no `processExit` can ever
decrement it, so `Await` blocks forever. -/
theorem runAsync_start_failure (killErr : Nat → Option String) (e : String)
    (st : EngineState) (c : Command) :
    (runAsync killErr (some e) st c).1.waitCount = st.waitCount + 1 ∧
    (runAsync killErr (some e) st c).1.spawnedProcesses = st.spawnedProcesses ∧
    (runAsync killErr (some e) st c).2.2 = none ∧
    awaitBlocked (runAsync killErr (some e) st c).1 = true ∧
    (st.live = [] → ∀ pid, processExit (runAsync killErr (some e) st c).1 pid = none) := by
  dsimp only [runAsync, killSpawned]
  cases h1 : lookupId st.spawnedProcesses c.hash with
  | none =>
    refine ⟨rfl, rfl, rfl, by simp [awaitBlocked], ?_⟩
    intro hl pid
    simp [processExit, hl]
  | some pid0 =>
    cases h2 : killErr pid0 with
    | none =>
      simp only [h2]
      refine ⟨by simp, by simp, by simp, by simp [awaitBlocked], ?_⟩
      intro hl pid
      simp [processExit, hl]
    | some e2 =>
      simp only [h2]
      refine ⟨by simp, by simp, by simp, by simp [awaitBlocked], ?_⟩
      intro hl pid
      simp [processExit, hl]

theorem runAsync_start_failure_witness :
    (runAsync (fun _ => none) (some "exec: not found") ⟨[], false, 0, [], 0⟩
      ⟨"x", [], [], "", false⟩).2.2 = none ∧
    (runAsync (fun _ => none) (some "exec: not found") ⟨[], false, 0, [], 0⟩
      ⟨"x", [], [], "", false⟩).1.waitCount = 0 + 1 ∧
    processExit (runAsync (fun _ => none) (some "exec: not found") ⟨[], false, 0, [], 0⟩
      ⟨"x", [], [], "", false⟩).1 7 = none :=
  ⟨(runAsync_start_failure (fun _ => none) "exec: not found" ⟨[], false, 0, [], 0⟩
      ⟨"x", [], [], "", false⟩).2.2.1,
   (runAsync_start_failure (fun _ => none) "exec: not found" ⟨[], false, 0, [], 0⟩
      ⟨"x", [], [], "", false⟩).1,
   (runAsync_start_failure (fun _ => none) "exec: not found" ⟨[], false, 0, [], 0⟩
      ⟨"x", [], [], "", false⟩).2.2.2.2 rfl 7⟩

/-! ## C7 -/

/-- C7: the function `killSpawned` is a no-op when nothing is tracked under the
identity; a failed kill is logged and swallowed (the state is untouched
and no error exists in the return type); and superseding never prevents
the new start: whatever the kill oracle does, `runAsync` still starts and
registers the new process and returns nil. -/
theorem killSpawned_swallows_errors (killErr : Nat → Option String)
    (st : EngineState) (id : String) :
    (lookupId st.spawnedProcesses id = none → killSpawned killErr st id = (st, [])) ∧
    (∀ pid e, lookupId st.spawnedProcesses id = some pid → killErr pid = some e →
      killSpawned killErr st id =
        (st, [.killSignal pid, .logError "Start" "Could not kill existing process"])) ∧
    (∀ c : Command,
      lookupId (runAsync killErr none st c).1.spawnedProcesses c.hash = some st.nextPid ∧
      Event.osStart st.nextPid c ∈ (runAsync killErr none st c).2.1 ∧
      (runAsync killErr none st c).2.2 = none) := by
  refine ⟨?_, ?_, ?_⟩
  · intro h
    simp [killSpawned, h]
  · intro pid e h1 h2
    simp [killSpawned, h1, h2]
  · intro c
    dsimp only [runAsync, killSpawned]
    cases h1 : lookupId st.spawnedProcesses c.hash with
    | none => simp [insertId, lookupId]
    | some pid0 =>
      cases h2 : killErr pid0 with
      | none => simp [h2, insertId, lookupId]
      | some e2 => simp [h2, insertId, lookupId]

theorem killSpawned_swallows_errors_witness :
    killSpawned (fun _ => some "kill failed") ⟨[("srv", 4)], true, 1, [4], 5⟩ "srv" =
      (⟨[("srv", 4)], true, 1, [4], 5⟩,
        [.killSignal 4, .logError "Start" "Could not kill existing process"]) ∧
    (runAsync (fun _ => some "kill failed") none ⟨[("srv", 4)], true, 1, [4], 5⟩
      ⟨"srv", [], [], "", false⟩).2.2 = none :=
  ⟨(killSpawned_swallows_errors (fun _ => some "kill failed")
      ⟨[("srv", 4)], true, 1, [4], 5⟩ "srv").2.1 4 "kill failed" rfl rfl,
   ((killSpawned_swallows_errors (fun _ => some "kill failed")
      ⟨[("srv", 4)], true, 1, [4], 5⟩ "srv").2.2 ⟨"srv", [], [], "", false⟩).2.2⟩

/-! ## Helper lemmas for the async engine -/

theorem hash_congr (c1 c2 : Command) (hex : c1.executable = c2.executable)
    (hargv : c1.argv = c2.argv) : c1.hash = c2.hash := by
  simp [Command.hash, hex, hargv]

theorem killSpawned_shape (killErr : Nat → Option String) (st : EngineState) (id : String) :
    ∃ l, (∀ p ∈ l, p ∈ st.live) ∧
      (killSpawned killErr st id).1 = { st with live := l } := by
  dsimp only [killSpawned]
  cases h1 : lookupId st.spawnedProcesses id with
  | none => exact ⟨st.live, fun p hp => hp, rfl⟩
  | some pid =>
    cases h2 : killErr pid with
    | some e =>
      simp only [h2]
      exact ⟨st.live, fun p hp => hp, rfl⟩
    | none =>
      simp only [h2]
      exact ⟨st.live.erase pid, fun p hp => List.mem_of_mem_erase hp, rfl⟩

theorem runAsync_none_eq (killErr : Nat → Option String) (st : EngineState) (c : Command) :
    runAsync killErr none st c =
      ({ spawnedProcesses := insertId (killSpawned killErr st c.hash).1.spawnedProcesses c.hash
            (killSpawned killErr st c.hash).1.nextPid,
         waitExit := true,
         waitCount := (killSpawned killErr st c.hash).1.waitCount + 1,
         live := (killSpawned killErr st c.hash).1.nextPid ::
            (killSpawned killErr st c.hash).1.live,
         nextPid := (killSpawned killErr st c.hash).1.nextPid + 1 },
       (killSpawned killErr st c.hash).2 ++
         [Event.osStart (killSpawned killErr st c.hash).1.nextPid c],
       none) := by
  dsimp only [runAsync]

/-! ## C2 -/

/-- C2: two sequential `runAsync` launches with the same executable and
argv (any env/working directory): after the first, its process
`st0.nextPid` is the unique handle tracked under the identity and is live;
the second launch first signals that process to terminate and only then
starts its own (the trace is exactly kill-then-start), after which the new
process is the unique tracked handle and the first one is no longer live —
at most one live tracked process for the identity at any time. -/
theorem startAsync_supersession (st0 : EngineState) (c1 c2 : Command)
    (killErr : Nat → Option String)
    (hex : c1.executable = c2.executable) (hargv : c1.argv = c2.argv)
    (hkill : ∀ p, killErr p = none)
    (hfresh : ∀ p ∈ st0.live, p < st0.nextPid) :
    lookupId (runAsync killErr none st0 c1).1.spawnedProcesses c1.hash = some st0.nextPid ∧
    st0.nextPid ∈ (runAsync killErr none st0 c1).1.live ∧
    (runAsync killErr none (runAsync killErr none st0 c1).1 c2).2.1 =
      [Event.killSignal st0.nextPid,
       Event.osStart (runAsync killErr none st0 c1).1.nextPid c2] ∧
    lookupId (runAsync killErr none (runAsync killErr none st0 c1).1 c2).1.spawnedProcesses
      c2.hash = some (runAsync killErr none st0 c1).1.nextPid ∧
    (runAsync killErr none st0 c1).1.nextPid ∈
      (runAsync killErr none (runAsync killErr none st0 c1).1 c2).1.live ∧
    st0.nextPid ∉ (runAsync killErr none (runAsync killErr none st0 c1).1 c2).1.live := by
  have hhash : c2.hash = c1.hash := (hash_congr c1 c2 hex hargv).symm
  obtain ⟨l1, hl1, hks1⟩ := killSpawned_shape killErr st0 c1.hash
  have hst1 : (runAsync killErr none st0 c1).1 =
      { spawnedProcesses := insertId st0.spawnedProcesses c1.hash st0.nextPid,
        waitExit := true, waitCount := st0.waitCount + 1,
        live := st0.nextPid :: l1, nextPid := st0.nextPid + 1 } := by
    rw [runAsync_none_eq, hks1]
  have hks2 : killSpawned killErr (runAsync killErr none st0 c1).1 c2.hash =
      ({ spawnedProcesses := insertId st0.spawnedProcesses c1.hash st0.nextPid,
         waitExit := true, waitCount := st0.waitCount + 1,
         live := l1, nextPid := st0.nextPid + 1 },
       [Event.killSignal st0.nextPid]) := by
    rw [hst1, hhash]
    simp [killSpawned, insertId, lookupId, hkill]
  have h2 : runAsync killErr none (runAsync killErr none st0 c1).1 c2 =
      ({ spawnedProcesses :=
            insertId (insertId st0.spawnedProcesses c1.hash st0.nextPid) c2.hash
              (st0.nextPid + 1),
         waitExit := true, waitCount := st0.waitCount + 1 + 1,
         live := (st0.nextPid + 1) :: l1, nextPid := st0.nextPid + 1 + 1 },
       [Event.killSignal st0.nextPid, Event.osStart (st0.nextPid + 1) c2],
       none) := by
    rw [runAsync_none_eq, hks2]
    rfl
  have hnotin : st0.nextPid ∉ l1 := fun hmem =>
    absurd (hfresh _ (hl1 _ hmem)) (lt_irrefl _)
  refine ⟨?_, ?_, ?_, ?_, ?_, ?_⟩
  · rw [hst1]; simp [insertId, lookupId]
  · rw [hst1]; simp
  · rw [h2, hst1]
  · rw [h2, hst1]; simp [insertId, lookupId]
  · rw [h2, hst1]; simp
  · rw [h2]
    simp only [EngineState.mk.injEq, List.mem_cons]
    rintro (h | h)
    · exact absurd h (Nat.ne_of_lt (Nat.lt_succ_self _))
    · exact hnotin h

theorem startAsync_supersession_witness :
    lookupId (runAsync (fun _ => none) none ⟨[], false, 0, [], 0⟩
        ⟨"srv", ["-p"], ["A=1"], "/a", false⟩).1.spawnedProcesses
        (Command.mk "srv" ["-p"] ["A=1"] "/a" false).hash = some 0 ∧
    (runAsync (fun _ => none) none
        (runAsync (fun _ => none) none ⟨[], false, 0, [], 0⟩
          ⟨"srv", ["-p"], ["A=1"], "/a", false⟩).1
        ⟨"srv", ["-p"], [], "/b", false⟩).2.1 =
      [Event.killSignal 0,
       Event.osStart (runAsync (fun _ => none) none ⟨[], false, 0, [], 0⟩
          ⟨"srv", ["-p"], ["A=1"], "/a", false⟩).1.nextPid
         ⟨"srv", ["-p"], [], "/b", false⟩] ∧
    0 ∉ (runAsync (fun _ => none) none
        (runAsync (fun _ => none) none ⟨[], false, 0, [], 0⟩
          ⟨"srv", ["-p"], ["A=1"], "/a", false⟩).1
        ⟨"srv", ["-p"], [], "/b", false⟩).1.live := by
  have h := startAsync_supersession ⟨[], false, 0, [], 0⟩
    ⟨"srv", ["-p"], ["A=1"], "/a", false⟩ ⟨"srv", ["-p"], [], "/b", false⟩
    (fun _ => none) rfl rfl (fun _ => rfl) (by intro p hp; cases hp)
  exact ⟨h.1, h.2.2.1, h.2.2.2.2.2⟩

/-! ## C4 -/

/-- C4: when the parsed executable ends in ".go", `Start` first performs
the synchronous `Run("go install")` build in the resolved working
directory; a build failure is returned with the engine state untouched (no
process launched or tracked), and on success the async launch runs with
the executable replaced by `path.Base` of the resolved working
directory. -/
theorem Start_go_suffix (tokens : List String) (wd : Option String)
    (osGetwd : Except String String) (killErr : Nat → Option String)
    (startErr : Option String) (st : EngineState) (dir : String) (r : SplitResult)
    (hwd : getWd wd osGetwd = .ok dir)
    (hsplit : splitCommand tokens = some r)
    (hgo : hasSuffix r.executable ".go" = true) :
    (∀ e, Start tokens wd osGetwd (some e) killErr startErr st =
        some (st, [Event.blockingRun ⟨"go", ["install"], [], dir, false⟩], some e)) ∧
    Start tokens wd osGetwd none killErr startErr st =
      some ((runAsync killErr startErr st ⟨pathBase dir, r.argv, r.env, dir, false⟩).1,
        Event.blockingRun ⟨"go", ["install"], [], dir, false⟩ ::
          (runAsync killErr startErr st ⟨pathBase dir, r.argv, r.env, dir, false⟩).2.1,
        (runAsync killErr startErr st ⟨pathBase dir, r.argv, r.env, dir, false⟩).2.2) := by
  constructor
  · intro e
    simp [Start, hwd, hsplit, hgo]
  · simp [Start, hwd, hsplit, hgo]

theorem Start_go_suffix_witness :
    Start ["server.go"] (some "/proj/app") (.ok "/proj/app") (some "build failed")
        (fun _ => none) none ⟨[], false, 0, [], 0⟩ =
      some (⟨[], false, 0, [], 0⟩,
        [Event.blockingRun ⟨"go", ["install"], [], "/proj/app", false⟩],
        some "build failed") ∧
    Start ["server.go"] (some "/proj/app") (.ok "/proj/app") none
        (fun _ => none) none ⟨[], false, 0, [], 0⟩ =
      some ((runAsync (fun _ => none) none ⟨[], false, 0, [], 0⟩
          ⟨pathBase "/proj/app", [], [], "/proj/app", false⟩).1,
        Event.blockingRun ⟨"go", ["install"], [], "/proj/app", false⟩ ::
          (runAsync (fun _ => none) none ⟨[], false, 0, [], 0⟩
            ⟨pathBase "/proj/app", [], [], "/proj/app", false⟩).2.1,
        (runAsync (fun _ => none) none ⟨[], false, 0, [], 0⟩
          ⟨pathBase "/proj/app", [], [], "/proj/app", false⟩).2.2) :=
  ⟨(Start_go_suffix ["server.go"] (some "/proj/app") (.ok "/proj/app") (fun _ => none)
      none ⟨[], false, 0, [], 0⟩ "/proj/app" ⟨"server.go", [], []⟩
      rfl (by decide) (by decide)).1 "build failed",
   (Start_go_suffix ["server.go"] (some "/proj/app") (.ok "/proj/app") (fun _ => none)
      none ⟨[], false, 0, [], 0⟩ "/proj/app" ⟨"server.go", [], []⟩
      rfl (by decide) (by decide)).2⟩

/-! ## C5 -/

/-- C5: the function `Inside` returns the directory-change error without invoking the
callback when switching to `dir` fails; otherwise it invokes the callback
exactly once with the working directory set to `dir` and afterwards — also
when the callback panics — the original working directory is restored
(provided the original directory still exists when the callback returns),
and a panic propagates while a normal return yields success. -/
theorem Inside_scoped (dir : String) (lambda : World → World × LambdaOutcome) (w : World) :
    (dir ∉ w.dirs → Inside dir lambda w = (w, .chdirError dir, [])) ∧
    (dir ∈ w.dirs →
      w.cwd ∈ (lambda { w with cwd := dir }).1.dirs →
      (Inside dir lambda w).2.2 = [{ w with cwd := dir }] ∧
      (Inside dir lambda w).1.cwd = w.cwd ∧
      (Inside dir lambda w).2.1 =
        (if (lambda { w with cwd := dir }).2 = LambdaOutcome.panicked
          then InsideResult.panicked else InsideResult.ok)) := by
  constructor
  · intro h
    simp [Inside, chdir, h]
  · intro h hres
    have hcd : chdir w dir = some { w with cwd := dir } := by simp [chdir, h]
    rcases hl : lambda { w with cwd := dir } with ⟨w2, outcome⟩
    rw [hl] at hres
    have hback : chdir w2 w.cwd = some { w2 with cwd := w.cwd } := by simp [chdir, hres]
    cases outcome with
    | ok => simp [Inside, hcd, hl, hback]
    | panicked => simp [Inside, hcd, hl, hback]

theorem Inside_scoped_witness :
    Inside "/nope" (fun w' => (w', LambdaOutcome.panicked)) ⟨"/home", ["/home", "/tmp"]⟩ =
      (⟨"/home", ["/home", "/tmp"]⟩, .chdirError "/nope", []) ∧
    (Inside "/tmp" (fun w' => (w', LambdaOutcome.panicked))
      ⟨"/home", ["/home", "/tmp"]⟩).2.2 = [⟨"/tmp", ["/home", "/tmp"]⟩] ∧
    (Inside "/tmp" (fun w' => (w', LambdaOutcome.panicked))
      ⟨"/home", ["/home", "/tmp"]⟩).1.cwd = "/home" ∧
    (Inside "/tmp" (fun w' => (w', LambdaOutcome.panicked))
      ⟨"/home", ["/home", "/tmp"]⟩).2.1 = InsideResult.panicked := by
  have h := (Inside_scoped "/tmp" (fun w' => (w', LambdaOutcome.panicked))
    ⟨"/home", ["/home", "/tmp"]⟩).2 (by decide) (by decide)
  refine ⟨(Inside_scoped "/nope" (fun w' => (w', LambdaOutcome.panicked))
    ⟨"/home", ["/home", "/tmp"]⟩).1 (by decide), h.1, h.2.1, ?_⟩
  rw [h.2.2]
  decide

end Gosu
